import Mathlib

/-!
Verification development for the fan-control backend (`src/backend/main.py`).

The Python code is shallowly embedded:
* temperatures are exact rationals (`ℚ`), duty-cycle (PWM) values are integers (`ℤ`);
* Python `int(x)` (truncation toward zero) is `truncQ`;
* Python `round(x, 1)` (round-half-even to one decimal) is `round1`;
* the mutable per-fan dictionaries `self.last_pwm` / `self.last_temp` of
  `SoftwareController` are an explicit `CtrlState` threaded through the functions;
* Python's `sorted(curve, key=lambda p: p["temp"])` is a stable sort; the output of
  a stable sort under a total preorder is uniquely determined by the input, so it is
  embedded as the (stable) insertion sort `sortByTemp`, which has the same output;
* fallible I/O (sysfs reads, helper calls) is an oracle returning `Option _` and the
  cooperative `self.running` flag of `AutoTuner` is an oracle `ℕ → Bool` giving the
  value observed by the k-th flag check of a run.
-/

/-- One point of a fan curve, as in the JSON config: `{"point": n, "temp": t, "pwm": p}`. -/
structure CurvePoint where
  point : ℤ
  temp : ℚ
  pwm : ℤ
deriving DecidableEq, Repr

/-- Python `int(x)`: truncation toward zero. -/
def truncQ (q : ℚ) : ℤ :=
  if q < 0 then -⌊-q⌋ else ⌊q⌋

/-- Insert a point into a list sorted by temperature: after all points of strictly
smaller temperature and before all points of greater-or-equal temperature. In
`sortByTemp` the inserted point comes from earlier in the original list than the
already-sorted ones, so placing it before equal temperatures is what makes the
sort stable. -/
def insertByTemp (p : CurvePoint) : List CurvePoint → List CurvePoint
  | [] => [p]
  | q :: rest => if q.temp < p.temp then q :: insertByTemp p rest else p :: q :: rest

/-- Stable sort by temperature: the embedding of
`sorted(curve, key=lambda p: p["temp"])` (main.py line 162). -/
def sortByTemp : List CurvePoint → List CurvePoint
  | [] => []
  | p :: rest => insertByTemp p (sortByTemp rest)

/-- Per-fan regulator memory: the dictionaries `self.last_pwm` and `self.last_temp`
of `SoftwareController` (absent key = `none`). -/
structure CtrlState where
  last_pwm : ℤ → Option ℤ
  last_temp : ℤ → Option ℚ

/-- The empty dictionaries: the state of a freshly constructed `SoftwareController`. -/
def freshSt : CtrlState :=
  { last_pwm := fun _ => none, last_temp := fun _ => none }

/-- The interpolation loop of `calculate_pwm_from_curve` (main.py lines 174-183):
scan adjacent pairs of the sorted curve, and on the first bracketing pair
linearly interpolate and truncate; if no pair brackets, the initial
`target_pwm = 128` survives. -/
def interpTarget (temp : ℚ) : List CurvePoint → ℤ
  | p1 :: p2 :: rest =>
      if p1.temp ≤ temp ∧ temp ≤ p2.temp then
        truncQ ((p1.pwm : ℚ) + (temp - p1.temp) / (p2.temp - p1.temp) * ((p2.pwm : ℚ) - (p1.pwm : ℚ)))
      else interpTarget temp (p2 :: rest)
  | _ => 128

/-- The target-duty computation of `calculate_pwm_from_curve` on the already-sorted
curve (main.py lines 165-183): at or below the first point's temperature the first
duty, at or above the last point's temperature the last duty, otherwise the
interpolation loop. -/
def evalSorted (temp : ℚ) : List CurvePoint → ℤ
  | [] => 128
  | p0 :: rest =>
      if temp ≤ p0.temp then p0.pwm
      else if (rest.getLastD p0).temp ≤ temp then (rest.getLastD p0).pwm
      else interpTarget temp (p0 :: rest)

/-- The curve-evaluation part of `calculate_pwm_from_curve` (main.py lines 158-183):
fewer than 2 points yields the fallback 128; otherwise sort by temperature and
clamp to the first/last duty outside the covered range, interpolating inside. -/
def evaluate (temp : ℚ) (curve : List CurvePoint) : ℤ :=
  if curve.length < 2 then 128 else evalSorted temp (sortByTemp curve)

/-- The hysteresis/ramp stage of `calculate_pwm_from_curve` (main.py lines 185-214):
given the raw target duty, consult and update the per-fan state and clamp the
result to [0,255]. Returns `(output pwm, updated state)`. -/
def applyHysteresis (st : CtrlState) (fan_id : ℤ) (temp : ℚ) (target_pwm : ℤ)
    (hysteresis_temp : ℚ) (ramp_down_rate : ℤ) : ℤ × CtrlState :=
  let last_pwm := (st.last_pwm fan_id).getD target_pwm
  let last_temp := (st.last_temp fan_id).getD temp
  let final_pwm : ℤ :=
    if last_temp + 1/2 < temp then target_pwm
    else if temp < last_temp - hysteresis_temp then
      (if target_pwm < last_pwm then max target_pwm (last_pwm - ramp_down_rate) else target_pwm)
    else
      (if last_pwm < target_pwm then target_pwm else max target_pwm (last_pwm - ramp_down_rate))
  let st' : CtrlState :=
    { last_pwm := fun j => if j = fan_id then some final_pwm else st.last_pwm j
      last_temp := fun j => if j = fan_id then some temp else st.last_temp j }
  (max 0 (min 255 final_pwm), st')

/-- `SoftwareController.calculate_pwm_from_curve` (main.py lines 143-214), with the
object state passed explicitly. The Python defaults are `hysteresis_temp = 2.0`
and `ramp_down_rate = 5`. Returns `(output pwm, updated state)`; with fewer than
2 curve points it returns 128 without touching the state. -/
def calculate_pwm_from_curve (st : CtrlState) (fan_id : ℤ) (temp : ℚ) (curve : List CurvePoint)
    (hysteresis_temp : ℚ) (ramp_down_rate : ℤ) : ℤ × CtrlState :=
  if curve.length < 2 then (128, st)
  else
    let target_pwm : ℤ := evalSorted temp (sortByTemp curve)
    let last_pwm := (st.last_pwm fan_id).getD target_pwm
    let last_temp := (st.last_temp fan_id).getD temp
    let final_pwm : ℤ :=
      if last_temp + 1/2 < temp then target_pwm
      else if temp < last_temp - hysteresis_temp then
        (if target_pwm < last_pwm then max target_pwm (last_pwm - ramp_down_rate) else target_pwm)
      else
        (if last_pwm < target_pwm then target_pwm else max target_pwm (last_pwm - ramp_down_rate))
    let st' : CtrlState :=
      { last_pwm := fun j => if j = fan_id then some final_pwm else st.last_pwm j
        last_temp := fun j => if j = fan_id then some temp else st.last_temp j }
    (max 0 (min 255 final_pwm), st')

/-- The default curve shipped in `DEFAULT_CONFIG` (main.py lines 43-49). -/
def default_curve : List CurvePoint :=
  [⟨1, 30, 50⟩, ⟨2, 40, 80⟩, ⟨3, 50, 120⟩, ⟨4, 60, 180⟩, ⟨5, 70, 255⟩]

/-! ### Curve validation of the `/api/curve` handler (`set_curve`, main.py lines 724-748) -/

/-- The monotonicity scan of `set_curve` (main.py lines 735-740): for each adjacent
pair, first reject a temperature decrease, then a PWM decrease; the returned
string is the HTTP 400 detail. -/
def validateAdjacent : CurvePoint → List CurvePoint → Option String
  | _, [] => none
  | prev, p :: rest =>
      if p.temp < prev.temp then some "Curve temperatures must be increasing"
      else if p.pwm < prev.pwm then some "Curve PWM values must be increasing"
      else validateAdjacent p rest

/-- The complete synchronous validation of the `set_curve` handler (main.py lines
729-740), performed before the config write and before any hardware write:
`some reason` means the request is rejected with HTTP 400 and that detail,
`none` means it is accepted. -/
def set_curve_validate (fan_id : ℤ) (curve : List CurvePoint) : Option String :=
  if fan_id < 1 ∨ 5 < fan_id then some "Invalid fan_id. Must be 1-5"
  else if curve.length ≠ 5 then some "Curve must have exactly 5 points"
  else
    match curve with
    | [] => none
    | p :: rest => validateAdjacent p rest

/-! ### Curve synthesis (`AutoTuner.generate_curve`, main.py lines 374-433) -/

/-- Round half to even (the rounding of Python's `round`), on exact rationals. -/
def rhe (q : ℚ) : ℤ :=
  if q - ⌊q⌋ < 1/2 then ⌊q⌋
  else if 1/2 < q - ⌊q⌋ then ⌊q⌋ + 1
  else if ⌊q⌋ % 2 = 0 then ⌊q⌋ else ⌊q⌋ + 1

/-- Python `round(x, 1)`: round half to even at one decimal place. -/
def round1 (q : ℚ) : ℚ := (rhe (10 * q) : ℚ) / 10

/-- One entry of the `profiles` table of `generate_curve` (main.py lines 377-393). -/
structure ProfileConfig where
  temp_margin : ℤ
  min_pwm_percent : ℚ
  curve_aggression : ℚ
deriving DecidableEq, Repr

/-- `profiles["silent"]` (main.py lines 378-382). -/
def silent_profile : ProfileConfig := ⟨10, 3/10, 7/10⟩

/-- `profiles["balanced"]` (main.py lines 383-387). -/
def balanced_profile : ProfileConfig := ⟨5, 4/10, 1⟩

/-- `profiles["performance"]` (main.py lines 388-392). -/
def performance_profile : ProfileConfig := ⟨0, 1/2, 13/10⟩

/-- `profiles.get(profile, profiles["balanced"])` (main.py line 395): any profile
name other than the three known ones falls back to the balanced policy. -/
def profileLookup (profile : String) : ProfileConfig :=
  if profile = "silent" then silent_profile
  else if profile = "balanced" then balanced_profile
  else if profile = "performance" then performance_profile
  else balanced_profile

/-- The part of a per-fan `CalibrationResult` consumed by `generate_curve`
(`fan_data["min_pwm"]`; the key is always present on a record produced by
`calibrate_fan`, so the Python `.get` default 77 is unreachable). -/
structure FanCalData where
  min_pwm : ℤ
deriving DecidableEq, Repr

/-- The part of a `TemperatureProfile` consumed by `generate_curve`
(`temp_data["idle_temp"]`; always present on a record produced by
`profile_temperature`, so the Python `.get` default 35 is unreachable). -/
structure TempData where
  idle_temp : ℚ
deriving DecidableEq, Repr

/-- `AutoTuner.generate_curve` (main.py lines 374-433): synthesize the 5-point
curve from the calibration record, the temperature profile and the policy name. -/
def generate_curve (fan_data : FanCalData) (temp_data : TempData) (profile : String) :
    List CurvePoint :=
  let config := profileLookup profile
  let idle := temp_data.idle_temp
  let max_safe : ℚ := 80
  let temp_range := max_safe - idle
  let min_pwm := max fan_data.min_pwm 50
  [⟨1, round1 idle, max (truncQ ((min_pwm : ℚ) * config.min_pwm_percent)) 50⟩,
   ⟨2, round1 (idle + temp_range * (1/4)), min (truncQ (255 * (2/5) * config.curve_aggression)) 255⟩,
   ⟨3, round1 (idle + temp_range * (1/2)), min (truncQ (255 * (3/5) * config.curve_aggression)) 255⟩,
   ⟨4, round1 (idle + temp_range * (3/4)), min (truncQ (255 * (4/5) * config.curve_aggression)) 255⟩,
   ⟨5, max_safe, 255⟩]

/-! ### The auto-tune run (`AutoTuner`, main.py lines 280-491)

`AutoTuner.run_auto_tune` and its helpers read the cooperative `self.running`
flag, which only an external `cancel()` call clears. The flag reads happen in a
fixed program order, so a run is modelled against an oracle `running : ℕ → Bool`
giving the value observed by the k-th flag check of the run (profiling performs
checks 0..29, one per sample; afterwards each fan performs one check in the
`run_auto_tune` loop followed by one check per duty level of its sweep).
Hardware I/O is modelled by oracles: `temp_read i` is the sensor value of sample
`i` (`none` = read failure), `rpm_read fan pwm` is the settled RPM observed for
`fan` at duty `pwm` (`none` = failed status read / missing fan entry), and
`statusOk fan` tells whether the initial `get_status` of `calibrate_fan`
succeeds. The wall-clock `timestamp` field of the results dict is outside the
model and elided. -/

/-- Per-fan result record of `AutoTuner.calibrate_fan` (main.py lines 294-299);
`pwm_rpm_map` keeps insertion order (tested duty levels are distinct). -/
structure CalResult where
  fan_id : ℤ
  min_pwm : ℤ
  pwm_rpm_map : List (ℤ × ℤ)
  max_rpm : ℤ
deriving DecidableEq, Repr

/-- The externally visible progress fields `self.progress` / `self.current_action`
of `AutoTuner`. -/
structure TunerUI where
  progress : ℤ
  current_action : String
deriving DecidableEq, Repr

/-- The fixed duty-level test sequence of `calibrate_fan` (main.py line 311). -/
def test_pwms : List ℤ := [0, 50, 77, 102, 128, 153, 179, 204, 230, 255]

/-- The record update of one sweep step (main.py lines 330-336), applied when the
RPM read succeeded: record the pair, set `min_pwm` on the first positive RPM while
`min_pwm` is still 0, and track the maximum RPM. -/
def sweepRecord (res : CalResult) (pwm : ℤ) : Option ℤ → CalResult
  | none => res
  | some rpm =>
      { res with
        pwm_rpm_map := res.pwm_rpm_map ++ [(pwm, rpm)]
        min_pwm := if 0 < rpm ∧ res.min_pwm = 0 then pwm else res.min_pwm
        max_rpm := if res.max_rpm < rpm then rpm else res.max_rpm }

/-- The duty sweep of `calibrate_fan` (main.py lines 313-338): walk the remaining
duty levels (`i` is the position in `test_pwms`, `k` the global flag-check
counter); each step first checks the running flag (returning the cancellation
error when it is cleared), then updates the progress fields and records the
observed RPM. -/
def calibrate_sweep (running : ℕ → Bool) (r : ℤ → Option ℤ) (fan_id : ℤ) :
    List ℤ → ℕ → CalResult → TunerUI → ℕ → (Except String CalResult) × TunerUI × ℕ
  | [], _, res, ui, k => (Except.ok res, ui, k)
  | pwm :: rest, i, res, ui, k =>
      if running k then
        let ui' : TunerUI :=
          ⟨(((i * 100) / 10 : ℕ) : ℤ),
           "Testing Fan " ++ toString fan_id ++ " at PWM " ++ toString pwm ++
             " (" ++ toString ((i + 1) * 100 / 10) ++ "%)"⟩
        calibrate_sweep running r fan_id rest (i + 1) (sweepRecord res pwm (r pwm)) ui' (k + 1)
      else (Except.error "Calibration cancelled", ui, k)

/-- `AutoTuner.calibrate_fan` (main.py lines 290-340): fail if the initial
`get_status` fails, otherwise run the duty sweep from a fresh result record. -/
def calibrate_fan (running : ℕ → Bool) (r : ℤ → Option ℤ) (statusOk : Bool)
    (fan_id : ℤ) (ui : TunerUI) (k : ℕ) : (Except String CalResult) × TunerUI × ℕ :=
  if statusOk then
    calibrate_sweep running r fan_id test_pwms 0 ⟨fan_id, 0, [], 0⟩ ui k
  else (Except.error "Failed to get fan status", ui, k)

/-- The sampling loop of `profile_temperature` (main.py lines 348-362): `i` is the
sample index (= global flag-check counter, profiling being the first phase of a
run), the second argument the number of samples still to take; each iteration
first checks the running flag, then updates the progress fields, then appends
the sample if the read succeeds. -/
def collect_temps (running : ℕ → Bool) (temp_read : ℕ → Option ℚ) (duration : ℕ) :
    ℕ → ℕ → List ℚ → TunerUI → (Except String (List ℚ)) × TunerUI
  | _, 0, acc, ui => (Except.ok acc, ui)
  | i, n + 1, acc, ui =>
      if running i then
        let ui' : TunerUI :=
          ⟨(((i * 100) / duration : ℕ) : ℤ),
           "Monitoring temperature (" ++ toString (i + 1) ++ "/" ++ toString duration ++ "s)"⟩
        match temp_read i with
        | some t => collect_temps running temp_read duration (i + 1) n (acc ++ [t]) ui'
        | none => collect_temps running temp_read duration (i + 1) n acc ui'
      else (Except.error "Profiling cancelled", ui)

/-- `TemperatureProfile` (main.py lines 367-372). -/
structure TempProfile where
  min_temp : ℚ
  max_temp : ℚ
  avg_temp : ℚ
  idle_temp : ℚ
deriving DecidableEq, Repr

/-- `AutoTuner.profile_temperature` (main.py lines 342-372): sample the sensor
once per second for `duration` samples; fail on cancellation or if no sample
was collected, otherwise report min/max/average and the first sample as idle. -/
def profile_temperature (running : ℕ → Bool) (temp_read : ℕ → Option ℚ) (duration : ℕ)
    (ui : TunerUI) : (Except String TempProfile) × TunerUI :=
  match collect_temps running temp_read duration 0 duration [] ui with
  | (Except.error e, ui') => (Except.error e, ui')
  | (Except.ok [], ui') => (Except.error "No temperature data collected", ui')
  | (Except.ok (t :: ts), ui') =>
      (Except.ok ⟨ts.foldl min t, ts.foldl max t,
        ((t :: ts).foldl (· + ·) 0) / (((t :: ts).length : ℚ)), t⟩, ui')

/-- The `self.results` dict of a run (main.py lines 438-444), minus the elided
wall-clock timestamp; `error` is the `"error"` key (absent = `none`). -/
structure Session where
  temp_profile : Option TempProfile
  fan_calibration : List (ℤ × CalResult)
  generated_curves : List (ℤ × List CurvePoint)
  profile : String
  error : Option String
deriving DecidableEq, Repr

/-- Phase 2 of `run_auto_tune` (main.py lines 457-477): for each requested fan
(`i` its position, `k` the global flag-check counter) first check the running
flag (recording `"Auto-tune cancelled"` and stopping when cleared), then
calibrate; a calibration error is only logged and the loop continues; on
success record the calibration and the generated curve. When the list is
exhausted the run is marked complete (main.py lines 476-477). -/
def tune_loop (running : ℕ → Bool) (rpm_read : ℤ → ℤ → Option ℤ) (statusOk : ℤ → Bool)
    (tp : TempProfile) (profile : String) (nFans : ℕ) :
    List ℤ → ℕ → Session → TunerUI → ℕ → Session × TunerUI
  | [], _, s, _, _ => (s, ⟨100, "Auto-tune complete!"⟩)
  | fan_id :: rest, i, s, ui, k =>
      if running k then
        let ui1 : TunerUI :=
          ⟨(((i * 100) / nFans : ℕ) : ℤ), "Calibrating Fan " ++ toString fan_id ++ "..."⟩
        match calibrate_fan running (rpm_read fan_id) (statusOk fan_id) fan_id ui1 (k + 1) with
        | (Except.error _, ui2, k2) =>
            tune_loop running rpm_read statusOk tp profile nFans rest (i + 1) s ui2 k2
        | (Except.ok cal, ui2, k2) =>
            tune_loop running rpm_read statusOk tp profile nFans rest (i + 1)
              { s with
                fan_calibration := s.fan_calibration ++ [(fan_id, cal)]
                generated_curves := s.generated_curves ++
                  [(fan_id, generate_curve ⟨cal.min_pwm⟩ ⟨tp.idle_temp⟩ profile)] }
              ui2 k2
      else ({ s with error := some "Auto-tune cancelled" }, ui)

/-- `AutoTuner.run_auto_tune` (main.py lines 435-486): reset the results, profile
the temperature for 30 samples (flag checks 0..29), then calibrate the requested
fans in order (flag checks from 30 on). Returns the final `self.results`
(as `Session`) and the final progress fields. -/
def run_auto_tune (running : ℕ → Bool) (temp_read : ℕ → Option ℚ)
    (rpm_read : ℤ → ℤ → Option ℤ) (statusOk : ℤ → Bool)
    (fan_ids : List ℤ) (profile : String) (ui0 : TunerUI) : Session × TunerUI :=
  let s0 : Session := ⟨none, [], [], profile, none⟩
  match profile_temperature running temp_read 30 ⟨ui0.progress, "Profiling system temperature..."⟩ with
  | (Except.error e, ui1) => ({ s0 with error := some e }, ui1)
  | (Except.ok tp, ui1) =>
      tune_loop running rpm_read statusOk tp profile fan_ids.length fan_ids 0
        { s0 with temp_profile := some tp } ui1 30

/-! ### Spec-side predicates and concrete inputs used in claim statements -/

/-- The Curve invariant's temperature monotonicity: non-decreasing temperatures. -/
def tempsMono (c : List CurvePoint) : Prop :=
  List.Chain' (fun a b => a.temp ≤ b.temp) c

/-- The Curve invariant's duty monotonicity: non-decreasing PWM values. -/
def pwmsMono (c : List CurvePoint) : Prop :=
  List.Chain' (fun a b => a.pwm ≤ b.pwm) c

/-- The Curve invariant's duty range: every PWM value lies in [0,255]. -/
def pwmsInRange (c : List CurvePoint) : Prop :=
  ∀ p ∈ c, 0 ≤ p.pwm ∧ p.pwm ≤ 255

/-- Reachable-state invariant of the regulator memory at a channel: a stored
last-output duty, when present, lies in [0,255]. -/
def lastPwmOk (st : CtrlState) (fan_id : ℤ) : Prop :=
  ∀ lp, st.last_pwm fan_id = some lp → 0 ≤ lp ∧ lp ≤ 255

/-- Whether the sweep oracle observed a strictly positive RPM at a duty level. -/
def obsPos (r : ℤ → Option ℤ) (p : ℤ) : Bool :=
  match r p with
  | some v => decide (0 < v)
  | none => false

/-- Spec-side description of the recorded start threshold: the lowest positive
tested duty level whose observed RPM is positive, or 0 when there is none. -/
def startThreshold (r : ℤ → Option ℤ) : ℤ :=
  ((test_pwms.filter fun p => decide (0 < p)).find? (fun p => obsPos r p)).getD 0

/-- Spec-side description of the recorded maximum RPM: the maximum of 0 and all
observed RPM values of the sweep. -/
def maxObservedRpm (r : ℤ → Option ℤ) : ℤ :=
  (test_pwms.filterMap r).foldl max 0

/-- Spec-side description of the recorded duty-to-RPM map: the tested duty levels
with a successful read, each paired with its observed RPM, in sweep order. -/
def observedPairs (r : ℤ → Option ℤ) : List (ℤ × ℤ) :=
  test_pwms.filterMap fun p => (r p).map fun v => (p, v)

/-- A degenerate but valid (non-decreasing, in-range) curve: all five points share
one temperature. -/
def flat_curve : List CurvePoint :=
  [⟨1, 50, 10⟩, ⟨2, 50, 20⟩, ⟨3, 50, 30⟩, ⟨4, 50, 40⟩, ⟨5, 50, 50⟩]

/-- A 5-point monotonic curve whose duty values all exceed 255. -/
def over_curve : List CurvePoint :=
  [⟨1, 30, 300⟩, ⟨2, 40, 301⟩, ⟨3, 50, 302⟩, ⟨4, 60, 303⟩, ⟨5, 70, 304⟩]

/-- Regulator state of a channel previously driven to output 200 at 55°C. -/
def st200 : CtrlState :=
  { last_pwm := fun j => if j = 1 then some 200 else none
    last_temp := fun j => if j = 1 then some 55 else none }

/-- A sweep observation where the fan is already spinning at duty 0 (RPM 400) and
at duty 50 (RPM 500), and reads 0 RPM at the higher duty levels. -/
def rpm_spin_at_zero : ℤ → Option ℤ :=
  fun p => if p = 0 then some 400 else if p = 50 then some 500 else some 0

/-! ### Helper lemmas: sorting -/

theorem sortByTemp_eq_self : ∀ {c : List CurvePoint}, tempsMono c → sortByTemp c = c
  | [], _ => rfl
  | [_], _ => rfl
  | p :: q :: rest, h => by
      rw [tempsMono, List.chain'_cons] at h
      have ih := sortByTemp_eq_self (c := q :: rest) h.2
      rw [sortByTemp, ih, insertByTemp, if_neg (not_lt.2 h.1)]

theorem mem_insertByTemp {a p : CurvePoint} : ∀ {l : List CurvePoint},
    a ∈ insertByTemp p l ↔ a = p ∨ a ∈ l
  | [] => by simp [insertByTemp]
  | q :: rest => by
      rw [insertByTemp]
      split
      · rw [List.mem_cons, mem_insertByTemp (l := rest)]
        simp
        tauto
      · simp

theorem mem_sortByTemp {a : CurvePoint} : ∀ {l : List CurvePoint}, a ∈ sortByTemp l ↔ a ∈ l
  | [] => Iff.rfl
  | p :: rest => by
      rw [sortByTemp, mem_insertByTemp, mem_sortByTemp (l := rest)]
      simp

theorem getLast?_cons_eq (p0 : CurvePoint) (rest : List CurvePoint) :
    (p0 :: rest).getLast? = some (rest.getLastD p0) := by
  rw [List.getLast?_cons, List.getLastD_eq_getLast?]

/-! ### Helper lemmas: truncation -/

theorem truncQ_of_nonneg {q : ℚ} (h : 0 ≤ q) : truncQ q = ⌊q⌋ := if_neg (not_lt.2 h)

theorem truncQ_nonneg {q : ℚ} (h : 0 ≤ q) : 0 ≤ truncQ q := by
  rw [truncQ_of_nonneg h]
  exact Int.floor_nonneg.2 h

theorem truncQ_le_intCast {q : ℚ} {n : ℤ} (h0 : 0 ≤ q) (h : q ≤ (n : ℚ)) : truncQ q ≤ n := by
  rw [truncQ_of_nonneg h0]
  have := Int.floor_le_floor h
  rwa [Int.floor_intCast] at this

/-! ### Helper lemmas: the curve evaluator -/

theorem pwmsInRange_tail {p : CurvePoint} {l : List CurvePoint} (h : pwmsInRange (p :: l)) :
    pwmsInRange l :=
  fun q hq => h q (List.mem_cons_of_mem _ hq)

theorem interpTarget_range (temp : ℚ) : ∀ {l : List CurvePoint}, pwmsInRange l →
    0 ≤ interpTarget temp l ∧ interpTarget temp l ≤ 255
  | [], _ => by norm_num [interpTarget]
  | [_], _ => by norm_num [interpTarget]
  | p1 :: p2 :: rest, h => by
      rw [interpTarget]
      split
      case isTrue hg =>
        have h1 := h p1 (by simp)
        have h2 := h p2 (by simp [List.mem_cons])
        have c11 : (0 : ℚ) ≤ (p1.pwm : ℚ) := by exact_mod_cast h1.1
        have c12 : (p1.pwm : ℚ) ≤ 255 := by exact_mod_cast h1.2
        have c21 : (0 : ℚ) ≤ (p2.pwm : ℚ) := by exact_mod_cast h2.1
        have c22 : (p2.pwm : ℚ) ≤ 255 := by exact_mod_cast h2.2
        rcases eq_or_lt_of_le (le_trans hg.1 hg.2) with heq | hlt
        · have hz : p2.temp - p1.temp = 0 := by linarith
          rw [hz, div_zero, zero_mul, add_zero]
          exact ⟨truncQ_nonneg c11, truncQ_le_intCast c11 (by exact_mod_cast c12)⟩
        · have hd : 0 < p2.temp - p1.temp := by linarith
          have hf0 : 0 ≤ (temp - p1.temp) / (p2.temp - p1.temp) :=
            div_nonneg (by linarith [hg.1]) (le_of_lt hd)
          have hf1 : (temp - p1.temp) / (p2.temp - p1.temp) ≤ 1 := by
            rw [div_le_one hd]; linarith [hg.2]
          have e0 : (0 : ℚ) ≤
              (p1.pwm : ℚ) + (temp - p1.temp) / (p2.temp - p1.temp) * ((p2.pwm : ℚ) - (p1.pwm : ℚ)) := by
            nlinarith [mul_nonneg hf0 c21, mul_nonneg (sub_nonneg.2 hf1) c11]
          have e255 :
              (p1.pwm : ℚ) + (temp - p1.temp) / (p2.temp - p1.temp) * ((p2.pwm : ℚ) - (p1.pwm : ℚ)) ≤
                ((255 : ℤ) : ℚ) := by
            push_cast
            nlinarith [mul_le_mul_of_nonneg_left c22 hf0,
              mul_le_mul_of_nonneg_left c12 (sub_nonneg.2 hf1)]
          exact ⟨truncQ_nonneg e0, truncQ_le_intCast e0 e255⟩
      case isFalse =>
        exact interpTarget_range temp (pwmsInRange_tail h)

theorem evalSorted_range (temp : ℚ) : ∀ {l : List CurvePoint}, pwmsInRange l →
    0 ≤ evalSorted temp l ∧ evalSorted temp l ≤ 255
  | [], _ => by norm_num [evalSorted]
  | p0 :: rest, h => by
      rw [evalSorted]
      by_cases h1 : temp ≤ p0.temp
      · rw [if_pos h1]
        exact h p0 (by simp)
      · rw [if_neg h1]
        by_cases h2 : (rest.getLastD p0).temp ≤ temp
        · rw [if_pos h2]
          exact h _ (List.getLastD_mem_cons rest p0)
        · rw [if_neg h2]
          exact interpTarget_range temp h

theorem evaluate_range {temp : ℚ} {curve : List CurvePoint} (h : pwmsInRange curve) :
    0 ≤ evaluate temp curve ∧ evaluate temp curve ≤ 255 := by
  rw [evaluate]
  split
  · norm_num
  · exact evalSorted_range temp fun p hp => h p (mem_sortByTemp.1 hp)

theorem evaluate_le_first {curve : List CurvePoint} {p0 : CurvePoint} {temp : ℚ}
    (hlen : 2 ≤ curve.length) (hm : tempsMono curve)
    (hh : curve.head? = some p0) (ht : temp ≤ p0.temp) : evaluate temp curve = p0.pwm := by
  rw [evaluate, if_neg (by omega), sortByTemp_eq_self hm]
  cases curve with
  | nil => simp at hh
  | cons q rest =>
      have hq : q = p0 := by simpa using hh
      rw [evalSorted, hq, if_pos ht]

theorem evaluate_ge_last {curve : List CurvePoint} {p0 pl : CurvePoint} {temp : ℚ}
    (hlen : 2 ≤ curve.length) (hm : tempsMono curve)
    (hh : curve.head? = some p0) (hl : curve.getLast? = some pl)
    (h1 : p0.temp < temp) (h2 : pl.temp ≤ temp) : evaluate temp curve = pl.pwm := by
  rw [evaluate, if_neg (by omega), sortByTemp_eq_self hm]
  cases curve with
  | nil => simp at hh
  | cons q rest =>
      have hq : q = p0 := by simpa using hh
      have hld : rest.getLastD q = pl := by
        rw [getLast?_cons_eq] at hl
        simpa using hl
      rw [evalSorted, hld, hq, if_neg (not_le.2 h1), if_pos h2]

/-! ### Helper lemmas: the hysteresis regulator -/

theorem calc_factor (st : CtrlState) (fan : ℤ) (temp : ℚ) (curve : List CurvePoint)
    (hys : ℚ) (ramp : ℤ) :
    calculate_pwm_from_curve st fan temp curve hys ramp =
      if curve.length < 2 then (128, st)
      else applyHysteresis st fan temp (evaluate temp curve) hys ramp := by
  by_cases h : curve.length < 2
  · simp [calculate_pwm_from_curve, h]
  · simp only [calculate_pwm_from_curve, evaluate, applyHysteresis, if_neg h]

theorem applyHysteresis_full (st : CtrlState) (fan : ℤ) (temp : ℚ) (t : ℤ) (hys : ℚ)
    (ht0 : 0 ≤ t) (ht255 : t ≤ 255) (hst : lastPwmOk st fan) :
    ∃ f : ℤ, 0 ≤ f ∧ f ≤ 255 ∧
      applyHysteresis st fan temp t hys 5 =
        (f, ⟨fun j => if j = fan then some f else st.last_pwm j,
             fun j => if j = fan then some temp else st.last_temp j⟩) := by
  have hlp : 0 ≤ (st.last_pwm fan).getD t ∧ (st.last_pwm fan).getD t ≤ 255 := by
    cases hsp : st.last_pwm fan with
    | none => simpa using ⟨ht0, ht255⟩
    | some lp => simpa using hst lp hsp
  refine ⟨if (st.last_temp fan).getD temp + 1/2 < temp then t
      else if temp < (st.last_temp fan).getD temp - hys then
        (if t < (st.last_pwm fan).getD t then max t ((st.last_pwm fan).getD t - 5) else t)
      else
        (if (st.last_pwm fan).getD t < t then t else max t ((st.last_pwm fan).getD t - 5)),
    ?_, ?_, ?_⟩
  · split_ifs <;> omega
  · split_ifs <;> omega
  · rw [applyHysteresis]
    have hb : 0 ≤ (if (st.last_temp fan).getD temp + 1/2 < temp then t
        else if temp < (st.last_temp fan).getD temp - hys then
          (if t < (st.last_pwm fan).getD t then max t ((st.last_pwm fan).getD t - 5) else t)
        else
          (if (st.last_pwm fan).getD t < t then t else max t ((st.last_pwm fan).getD t - 5))) ∧
        (if (st.last_temp fan).getD temp + 1/2 < temp then t
        else if temp < (st.last_temp fan).getD temp - hys then
          (if t < (st.last_pwm fan).getD t then max t ((st.last_pwm fan).getD t - 5) else t)
        else
          (if (st.last_pwm fan).getD t < t then t else max t ((st.last_pwm fan).getD t - 5))) ≤ 255 := by
      constructor <;> (split_ifs <;> omega)
    rw [min_eq_right hb.2, max_eq_right hb.1]

/-! ### Claim theorems: the curve evaluator and regulator (C1-C5) -/

/-- C1 (counterexample): with the curve [(30,50),(40,80),(50,120),(60,180),(70,255)],
temperature 45°C and fresh regulator state, `calculate_pwm_from_curve` returns 100,
not the 150 the claim states: 45°C lies between the points (40,80) and (50,120),
not between (50,120) and (60,180). -/
theorem c1_counterexample :
    (calculate_pwm_from_curve freshSt 1 45 default_curve 2 5).1 = 100 ∧
    (calculate_pwm_from_curve freshSt 1 45 default_curve 2 5).1 ≠ 150 := by
  constructor <;>
    norm_num [calculate_pwm_from_curve, sortByTemp, insertByTemp, evalSorted, interpTarget,
      truncQ, default_curve, freshSt, min_def, max_def]

/-- C1 (amended): with the curve [(30,50),(40,80),(50,120),(60,180),(70,255)],
temperature 45°C and fresh regulator state for the channel, the evaluation returns
100, halfway between 80 and 120 (the duties of the two points bracketing 45°C). -/
theorem c1_eval_45_gives_100 :
    (calculate_pwm_from_curve freshSt 1 45 default_curve 2 5).1 = 100 := by
  norm_num [calculate_pwm_from_curve, sortByTemp, insertByTemp, evalSorted, interpTarget,
    truncQ, default_curve, freshSt, min_def, max_def]

theorem applyHysteresis_fresh (st : CtrlState) (fan : ℤ) (temp : ℚ) (t : ℤ) (hys : ℚ)
    (h1 : st.last_pwm fan = none) (h2 : st.last_temp fan = none)
    (hh : 0 ≤ hys) (ht0 : 0 ≤ t) (ht255 : t ≤ 255) :
    (applyHysteresis st fan temp t hys 5).1 = t := by
  simp only [applyHysteresis, h1, h2, Option.getD_none]
  rw [if_neg (by linarith), if_neg (by linarith), if_neg (lt_irrefl t),
    max_eq_left (show t - 5 ≤ t by omega), min_eq_right ht255, max_eq_right ht0]

/-- C2 (amended): for every valid 5-point monotonic in-range curve and fresh
regulator state for the channel, a temperature at or below the first point's
temperature yields exactly the first point's duty; a temperature at or above the
last point's temperature — provided it is strictly above the first point's
temperature — yields exactly the last point's duty; and any curve with fewer than
2 points yields the fixed fallback 128. (The proviso is forced by curves whose
five points share one temperature: there the first branch of the evaluator wins
and the first duty is returned, see the counterexample.) -/
theorem c2_boundary_and_fallback :
    (∀ (curve : List CurvePoint) (temp : ℚ) (st : CtrlState) (fan : ℤ) (p0 : CurvePoint),
        curve.length = 5 → tempsMono curve → pwmsMono curve → pwmsInRange curve →
        st.last_pwm fan = none → st.last_temp fan = none →
        curve.head? = some p0 → temp ≤ p0.temp →
        (calculate_pwm_from_curve st fan temp curve 2 5).1 = p0.pwm) ∧
    (∀ (curve : List CurvePoint) (temp : ℚ) (st : CtrlState) (fan : ℤ) (p0 pl : CurvePoint),
        curve.length = 5 → tempsMono curve → pwmsMono curve → pwmsInRange curve →
        st.last_pwm fan = none → st.last_temp fan = none →
        curve.head? = some p0 → curve.getLast? = some pl →
        p0.temp < temp → pl.temp ≤ temp →
        (calculate_pwm_from_curve st fan temp curve 2 5).1 = pl.pwm) ∧
    (∀ (curve : List CurvePoint) (temp : ℚ) (st : CtrlState) (fan : ℤ),
        curve.length < 2 →
        (calculate_pwm_from_curve st fan temp curve 2 5).1 = 128) := by
  refine ⟨?_, ?_, ?_⟩
  · intro curve temp st fan p0 h5 hm _ hr hs1 hs2 hh ht
    have hlen : 2 ≤ curve.length := by omega
    have hev := evaluate_le_first hlen hm hh ht
    have hb := hr p0 (List.mem_of_mem_head? (by simp [hh]))
    rw [calc_factor, if_neg (by omega), hev]
    exact applyHysteresis_fresh st fan temp p0.pwm 2 hs1 hs2 (by norm_num) hb.1 hb.2
  · intro curve temp st fan p0 pl h5 hm _ hr hs1 hs2 hh hl h1 h2
    have hlen : 2 ≤ curve.length := by omega
    have hev := evaluate_ge_last hlen hm hh hl h1 h2
    have hb := hr pl (List.mem_of_mem_getLast? (by simp [hl]))
    rw [calc_factor, if_neg (by omega), hev]
    exact applyHysteresis_fresh st fan temp pl.pwm 2 hs1 hs2 (by norm_num) hb.1 hb.2
  · intro curve temp st fan h
    rw [calc_factor, if_pos h]

/-- C2 (witness): the default curve with fresh state: 20°C (below 30°C) yields the
first duty 50; 90°C (above 70°C) yields the last duty 255; the empty curve yields
128. -/
theorem c2_boundary_and_fallback_witness :
    default_curve.length = 5 ∧ tempsMono default_curve ∧ pwmsMono default_curve ∧
    pwmsInRange default_curve ∧ freshSt.last_pwm 1 = none ∧ freshSt.last_temp 1 = none ∧
    (calculate_pwm_from_curve freshSt 1 20 default_curve 2 5).1 = 50 ∧
    (calculate_pwm_from_curve freshSt 1 90 default_curve 2 5).1 = 255 ∧
    (calculate_pwm_from_curve freshSt 1 90 [] 2 5).1 = 128 := by
  have h5 : default_curve.length = 5 := by norm_num [default_curve]
  have hm : tempsMono default_curve := by
    norm_num [tempsMono, default_curve, List.chain'_cons]
  have hpm : pwmsMono default_curve := by
    norm_num [pwmsMono, default_curve, List.chain'_cons]
  have hr : pwmsInRange default_curve := by
    norm_num [pwmsInRange, default_curve, List.forall_mem_cons]
  have hs1 : freshSt.last_pwm 1 = none := rfl
  have hs2 : freshSt.last_temp 1 = none := rfl
  refine ⟨h5, hm, hpm, hr, hs1, hs2, ?_, ?_, ?_⟩
  · exact c2_boundary_and_fallback.1 default_curve 20 freshSt 1 ⟨1, 30, 50⟩ h5 hm hpm hr hs1 hs2
      rfl (by norm_num)
  · exact c2_boundary_and_fallback.2.1 default_curve 90 freshSt 1 ⟨1, 30, 50⟩ ⟨5, 70, 255⟩ h5 hm
      hpm hr hs1 hs2 rfl (by norm_num [default_curve]) (by norm_num) (by norm_num)
  · exact c2_boundary_and_fallback.2.2 [] 90 freshSt 1 (by norm_num)

/-- C2 (counterexample): the degenerate valid curve whose five points all have
temperature 50 refutes the claim's top-end clause as stated: at 50°C the
temperature is ≥ the last point's temperature (50), yet the evaluator returns the
first point's duty 10, not the last point's duty 50. -/
theorem c2_counterexample :
    flat_curve.length = 5 ∧ tempsMono flat_curve ∧ pwmsMono flat_curve ∧
    pwmsInRange flat_curve ∧
    flat_curve.getLast? = some ⟨5, 50, 50⟩ ∧ ((⟨5, 50, 50⟩ : CurvePoint).temp ≤ (50 : ℚ)) ∧
    (calculate_pwm_from_curve freshSt 1 50 flat_curve 2 5).1 = 10 ∧
    (calculate_pwm_from_curve freshSt 1 50 flat_curve 2 5).1 ≠ (⟨5, 50, 50⟩ : CurvePoint).pwm := by
  refine ⟨by norm_num [flat_curve], ?_, ?_, ?_, by norm_num [flat_curve], by norm_num, ?_, ?_⟩
  · norm_num [tempsMono, flat_curve, List.chain'_cons]
  · norm_num [pwmsMono, flat_curve, List.chain'_cons]
  · norm_num [pwmsInRange, flat_curve, List.forall_mem_cons]
  · norm_num [calculate_pwm_from_curve, sortByTemp, insertByTemp, evalSorted, interpTarget,
      truncQ, flat_curve, freshSt, min_def, max_def]
  · norm_num [calculate_pwm_from_curve, sortByTemp, insertByTemp, evalSorted, interpTarget,
      truncQ, flat_curve, freshSt, min_def, max_def]

/-- C3: when the temperature has fallen past the 2°C hysteresis margin and the
target duty is below the stored prior output, the regulator returns exactly
`max target (last_output − 5)`: it ramps down by at most 5 per call and never
undershoots the target. -/
theorem c3_falling_ramp_limit (st : CtrlState) (fan : ℤ) (temp lastT : ℚ) (target lastP : ℤ)
    (hlp : st.last_pwm fan = some lastP) (hlt : st.last_temp fan = some lastT)
    (hfall : temp < lastT - 2) (htl : target < lastP)
    (h0 : 0 ≤ target) (h255 : lastP ≤ 255) :
    (applyHysteresis st fan temp target 2 5).1 = max target (lastP - 5) ∧
    lastP - (applyHysteresis st fan temp target 2 5).1 ≤ 5 ∧
    target ≤ (applyHysteresis st fan temp target 2 5).1 := by
  have key : (applyHysteresis st fan temp target 2 5).1 = max target (lastP - 5) := by
    simp only [applyHysteresis, hlp, hlt, Option.getD_some]
    rw [if_neg (by linarith), if_pos hfall, if_pos htl,
      min_eq_right (max_le (by omega) (by omega)),
      max_eq_right (le_trans h0 (le_max_left _ _))]
  exact ⟨key, by rw [key]; omega, by rw [key]; omega⟩

/-- C3 (witness): prior output 200 at 55°C, then 50°C with target 120, yields
`max 120 (200−5) = 195`. -/
theorem c3_falling_ramp_limit_witness :
    st200.last_pwm 1 = some 200 ∧ st200.last_temp 1 = some 55 ∧
    (50 : ℚ) < 55 - 2 ∧ (120 : ℤ) < 200 ∧ (0 : ℤ) ≤ 120 ∧ (200 : ℤ) ≤ 255 ∧
    (applyHysteresis st200 1 50 120 2 5).1 = 195 := by
  have h1 : st200.last_pwm 1 = some 200 := rfl
  have h2 : st200.last_temp 1 = some 55 := rfl
  have h3 : (50 : ℚ) < 55 - 2 := by norm_num
  have h4 : (120 : ℤ) < 200 := by norm_num
  have h5 : (0 : ℤ) ≤ 120 := by norm_num
  have h6 : (200 : ℤ) ≤ 255 := by norm_num
  have hk := (c3_falling_ramp_limit st200 1 50 55 120 200 h1 h2 h3 h4 h5 h6).1
  exact ⟨h1, h2, h3, h4, h5, h6, by rw [hk]; decide⟩

/-- C4: for a curve of at least 2 points whose duties respect the Curve invariant
and a regulator state respecting the reachable-state invariant, a call stores
exactly `(returned output duty, input temperature)` for the channel, and the
returned duty lies in [0,255]. -/
theorem c4_state_update_and_clamp (st : CtrlState) (fan : ℤ) (temp : ℚ)
    (curve : List CurvePoint) (hlen : 2 ≤ curve.length)
    (hr : pwmsInRange curve) (hst : lastPwmOk st fan) :
    (calculate_pwm_from_curve st fan temp curve 2 5).2.last_pwm fan =
      some (calculate_pwm_from_curve st fan temp curve 2 5).1 ∧
    (calculate_pwm_from_curve st fan temp curve 2 5).2.last_temp fan = some temp ∧
    0 ≤ (calculate_pwm_from_curve st fan temp curve 2 5).1 ∧
    (calculate_pwm_from_curve st fan temp curve 2 5).1 ≤ 255 := by
  have hev : 0 ≤ evaluate temp curve ∧ evaluate temp curve ≤ 255 := evaluate_range hr
  obtain ⟨f, hf0, hf255, heq⟩ :=
    applyHysteresis_full st fan temp (evaluate temp curve) 2 hev.1 hev.2 hst
  rw [calc_factor, if_neg (by omega), heq]
  exact ⟨by simp, by simp, hf0, hf255⟩

/-- C4 (witness): the default curve at 45°C from fresh state: output 100 is stored
with the temperature and lies in range. -/
theorem c4_state_update_and_clamp_witness :
    2 ≤ default_curve.length ∧ pwmsInRange default_curve ∧ lastPwmOk freshSt 1 ∧
    (calculate_pwm_from_curve freshSt 1 45 default_curve 2 5).2.last_pwm 1 =
      some ((calculate_pwm_from_curve freshSt 1 45 default_curve 2 5).1) ∧
    (calculate_pwm_from_curve freshSt 1 45 default_curve 2 5).2.last_temp 1 = some 45 ∧
    0 ≤ (calculate_pwm_from_curve freshSt 1 45 default_curve 2 5).1 ∧
    (calculate_pwm_from_curve freshSt 1 45 default_curve 2 5).1 ≤ 255 := by
  have hl : 2 ≤ default_curve.length := by norm_num [default_curve]
  have hr : pwmsInRange default_curve := by
    norm_num [pwmsInRange, default_curve, List.forall_mem_cons]
  have hst : lastPwmOk freshSt 1 := by intro lp h; simp [freshSt] at h
  have h := c4_state_update_and_clamp freshSt 1 45 default_curve hl hr hst
  exact ⟨hl, hr, hst, h.1, h.2.1, h.2.2.1, h.2.2.2⟩

/-- C5: the curve-evaluation stage is stateless and idempotent. For every state,
channel and parameters, `calculate_pwm_from_curve` factors as the hysteresis
stage applied to `evaluate temp curve` (with the <2-point fallback 128 leaving
the state untouched). `evaluate` is a pure function of the temperature and the
curve alone, so two successive invocations on the same inputs compute the same
target duty regardless of the per-channel regulator state. -/
theorem c5_evaluation_stateless (st : CtrlState) (fan : ℤ) (temp : ℚ)
    (curve : List CurvePoint) (hys : ℚ) (ramp : ℤ) :
    calculate_pwm_from_curve st fan temp curve hys ramp =
      if curve.length < 2 then (128, st)
      else applyHysteresis st fan temp (evaluate temp curve) hys ramp :=
  calc_factor st fan temp curve hys ramp

/-! ### Claim theorems: curve validation (C7) -/

theorem validateAdjacent_none_iff : ∀ (p : CurvePoint) (l : List CurvePoint),
    validateAdjacent p l = none ↔
      (List.Chain' (fun a b => a.temp ≤ b.temp) (p :: l) ∧
       List.Chain' (fun a b => a.pwm ≤ b.pwm) (p :: l))
  | _, [] => by simp [validateAdjacent]
  | p, q :: rest => by
      rw [validateAdjacent]
      by_cases h1 : q.temp < p.temp
      · rw [if_pos h1]
        constructor
        · intro h; simp at h
        · rintro ⟨hc, -⟩
          rw [List.chain'_cons] at hc
          exact absurd hc.1 (not_le.2 h1)
      · rw [if_neg h1]
        by_cases h2 : q.pwm < p.pwm
        · rw [if_pos h2]
          constructor
          · intro h; simp at h
          · rintro ⟨-, hc⟩
            rw [List.chain'_cons] at hc
            exact absurd hc.1 (not_le.2 h2)
        · rw [if_neg h2, validateAdjacent_none_iff q rest]
          simp only [List.chain'_cons]
          constructor
          · rintro ⟨hc1, hc2⟩
            exact ⟨⟨not_lt.1 h1, hc1⟩, ⟨not_lt.1 h2, hc2⟩⟩
          · rintro ⟨⟨-, hc1⟩, ⟨-, hc2⟩⟩
            exact ⟨hc1, hc2⟩

/-- C7 (amended): for every fan id in 1..5, the set_curve validation accepts a
submission exactly when it has exactly 5 points and both its temperatures and its
PWM values are non-decreasing between consecutive points; every violation is
rejected synchronously (before the config and hardware writes that follow the
checks) with a descriptive reason. Out-of-range duty values are NOT checked (see
the counterexample), so that part of the claim does not hold. -/
theorem c7_validation_iff (fan_id : ℤ) (curve : List CurvePoint)
    (hf1 : 1 ≤ fan_id) (hf2 : fan_id ≤ 5) :
    set_curve_validate fan_id curve = none ↔
      (curve.length = 5 ∧ tempsMono curve ∧ pwmsMono curve) := by
  rw [set_curve_validate.eq_def, if_neg (by omega)]
  by_cases h5 : curve.length = 5
  · rw [if_neg (not_not_intro h5)]
    cases curve with
    | nil => simp at h5
    | cons p rest =>
        rw [tempsMono, pwmsMono]
        simpa [h5] using validateAdjacent_none_iff p rest
  · rw [if_pos h5]
    simp [h5]

/-- C7 (witness): fan 1 with the default curve: accepted, 5 points, monotonic. -/
theorem c7_validation_iff_witness :
    (1 : ℤ) ≤ 1 ∧ (1 : ℤ) ≤ 5 ∧
    (set_curve_validate 1 default_curve = none ↔
      (default_curve.length = 5 ∧ tempsMono default_curve ∧ pwmsMono default_curve)) :=
  ⟨by norm_num, by norm_num, c7_validation_iff 1 default_curve (by norm_num) (by norm_num)⟩

/-- C7 (counterexample): a 5-point monotonic submission whose duties all exceed 255
is accepted by the set_curve validation — duty range is never checked — refuting
the claim that submissions with a duty outside [0,255] are rejected. -/
theorem c7_counterexample :
    ((⟨1, 30, 300⟩ : CurvePoint) ∈ over_curve) ∧ (255 < (⟨1, 30, 300⟩ : CurvePoint).pwm) ∧
    set_curve_validate 1 over_curve = none := by
  refine ⟨by norm_num [over_curve], by norm_num, ?_⟩
  norm_num [set_curve_validate, validateAdjacent, over_curve]

/-! ### Claim theorems: curve synthesis (C8, C10) -/

theorem profileLookup_silent : profileLookup "silent" = silent_profile := rfl

theorem profileLookup_balanced : profileLookup "balanced" = balanced_profile := rfl

theorem profileLookup_performance : profileLookup "performance" = performance_profile := rfl

theorem profileLookup_cases (profile : String) :
    profileLookup profile = silent_profile ∨ profileLookup profile = balanced_profile ∨
    profileLookup profile = performance_profile := by
  rw [profileLookup]
  split_ifs <;> simp

theorem rhe_ge_floor (q : ℚ) : ⌊q⌋ ≤ rhe q := by
  rw [rhe]; split_ifs <;> omega

theorem rhe_le_floor_add_one (q : ℚ) : rhe q ≤ ⌊q⌋ + 1 := by
  rw [rhe]; split_ifs <;> omega

theorem rhe_mono {q r : ℚ} (h : q ≤ r) : rhe q ≤ rhe r := by
  rcases lt_or_eq_of_le (Int.floor_le_floor h) with hf | hf
  · calc rhe q ≤ ⌊q⌋ + 1 := rhe_le_floor_add_one q
      _ ≤ ⌊r⌋ := by omega
      _ ≤ rhe r := rhe_ge_floor r
  · rw [rhe, rhe, ← hf]
    have hqr : q - (⌊q⌋ : ℚ) ≤ r - (⌊q⌋ : ℚ) := by linarith
    split_ifs <;> first | rfl | omega | linarith

theorem round1_mono {q r : ℚ} (h : q ≤ r) : round1 q ≤ round1 r := by
  rw [round1, round1]
  have hm : rhe (10 * q) ≤ rhe (10 * r) := rhe_mono (by linarith)
  have hc : ((rhe (10 * q) : ℤ) : ℚ) ≤ ((rhe (10 * r) : ℤ) : ℚ) := by exact_mod_cast hm
  linarith

theorem rhe_intCast (n : ℤ) : rhe ((n : ℚ)) = n := by
  rw [rhe, Int.floor_intCast, sub_self]
  norm_num

theorem round1_of_int (n : ℤ) : round1 ((n : ℚ)) = n := by
  have h10 : (10 : ℚ) * (n : ℚ) = ((10 * n : ℤ) : ℚ) := by push_cast; ring
  rw [round1, h10, rhe_intCast]
  push_cast
  ring

theorem p1_pwm_bounds (m : ℤ) (fr : ℚ) (B : ℤ) (hm : m ≤ 230) (hfr : 0 ≤ fr)
    (hB : (230 : ℚ) * fr ≤ (B : ℚ)) (h50B : 50 ≤ B) :
    50 ≤ max (truncQ (((max m 50 : ℤ) : ℚ) * fr)) 50 ∧
    max (truncQ (((max m 50 : ℤ) : ℚ) * fr)) 50 ≤ B := by
  refine ⟨le_max_right _ _, max_le ?_ h50B⟩
  have hmx : ((max m 50 : ℤ) : ℚ) ≤ 230 := by exact_mod_cast max_le hm (by norm_num)
  have h0 : (0 : ℚ) ≤ ((max m 50 : ℤ) : ℚ) := by
    exact_mod_cast le_trans (by norm_num : (0 : ℤ) ≤ 50) (le_max_right m 50)
  exact truncQ_le_intCast (mul_nonneg h0 hfr)
    (le_trans (mul_le_mul_of_nonneg_right hmx hfr) hB)

theorem gen_invariant_aux (m : ℤ) (idle : ℚ) (profile : String) (cfg : ProfileConfig)
    (d2 d3 d4 : ℤ) (hcfg : profileLookup profile = cfg)
    (hm : m ≤ 230) (hi : idle ≤ 80) (hfr : 0 ≤ cfg.min_pwm_percent)
    (he2 : min (truncQ (255 * (2/5) * cfg.curve_aggression)) 255 = d2)
    (he3 : min (truncQ (255 * (3/5) * cfg.curve_aggression)) 255 = d3)
    (he4 : min (truncQ (255 * (4/5) * cfg.curve_aggression)) 255 = d4)
    (hB : (230 : ℚ) * cfg.min_pwm_percent ≤ (d2 : ℚ)) (h50 : 50 ≤ d2)
    (h23 : d2 ≤ d3) (h34 : d3 ≤ d4) (h4255 : d4 ≤ 255) :
    tempsMono (generate_curve ⟨m⟩ ⟨idle⟩ profile) ∧
    pwmsMono (generate_curve ⟨m⟩ ⟨idle⟩ profile) ∧
    pwmsInRange (generate_curve ⟨m⟩ ⟨idle⟩ profile) := by
  have hp1 := p1_pwm_bounds m cfg.min_pwm_percent d2 hm hfr hB h50
  have hT1 : round1 idle ≤ round1 (idle + (80 - idle) * (1/4)) := round1_mono (by linarith)
  have hT2 : round1 (idle + (80 - idle) * (1/4)) ≤ round1 (idle + (80 - idle) * (1/2)) :=
    round1_mono (by linarith)
  have hT3 : round1 (idle + (80 - idle) * (1/2)) ≤ round1 (idle + (80 - idle) * (3/4)) :=
    round1_mono (by linarith)
  have hT4 : round1 (idle + (80 - idle) * (3/4)) ≤ 80 := by
    have h80 : round1 (idle + (80 - idle) * (3/4)) ≤ round1 (((80 : ℤ) : ℚ)) :=
      round1_mono (by push_cast; linarith)
    rw [round1_of_int] at h80
    exact_mod_cast h80
  refine ⟨?_, ?_, ?_⟩
  · simp only [generate_curve, hcfg, tempsMono, List.chain'_cons, List.chain'_singleton]
    exact ⟨hT1, hT2, hT3, hT4, trivial⟩
  · simp only [generate_curve, hcfg, pwmsMono, List.chain'_cons, List.chain'_singleton,
      he2, he3, he4]
    exact ⟨le_trans hp1.2 (by omega), h23, h34, by omega, trivial⟩
  · simp only [generate_curve, hcfg, pwmsInRange, List.forall_mem_cons, he2, he3, he4]
    refine ⟨⟨by omega, by omega⟩, ⟨by omega, by omega⟩, ⟨by omega, by omega⟩,
      ⟨by omega, by omega⟩, ⟨by norm_num, by norm_num⟩, by simp⟩

/-- C8 (amended): for every calibration record with min_pwm ≤ 230, every
temperature profile with idle temperature ≤ 80°C, and every profile policy name,
the synthesized 5-point curve satisfies the Curve invariant: non-decreasing
temperatures, non-decreasing duties, duties in [0,255]. (Both restrictions are
forced: an idle temperature above 80°C makes the temperatures decrease, and the
silent policy with min_pwm = 255 makes the duty of point 1 (76) exceed that of
point 2 (71) — see the counterexample.) -/
theorem c8_curve_invariant (m : ℤ) (idle : ℚ) (profile : String)
    (hm : m ≤ 230) (hi : idle ≤ 80) :
    tempsMono (generate_curve ⟨m⟩ ⟨idle⟩ profile) ∧
    pwmsMono (generate_curve ⟨m⟩ ⟨idle⟩ profile) ∧
    pwmsInRange (generate_curve ⟨m⟩ ⟨idle⟩ profile) := by
  rcases profileLookup_cases profile with hc | hc | hc
  · exact gen_invariant_aux m idle profile silent_profile 71 107 142 hc hm hi
      (by norm_num [silent_profile])
      (by norm_num [silent_profile, truncQ, min_def])
      (by norm_num [silent_profile, truncQ, min_def])
      (by norm_num [silent_profile, truncQ, min_def])
      (by norm_num [silent_profile]) (by norm_num) (by norm_num) (by norm_num) (by norm_num)
  · exact gen_invariant_aux m idle profile balanced_profile 102 153 204 hc hm hi
      (by norm_num [balanced_profile])
      (by norm_num [balanced_profile, truncQ, min_def])
      (by norm_num [balanced_profile, truncQ, min_def])
      (by norm_num [balanced_profile, truncQ, min_def])
      (by norm_num [balanced_profile]) (by norm_num) (by norm_num) (by norm_num) (by norm_num)
  · exact gen_invariant_aux m idle profile performance_profile 132 198 255 hc hm hi
      (by norm_num [performance_profile])
      (by norm_num [performance_profile, truncQ, min_def])
      (by norm_num [performance_profile, truncQ, min_def])
      (by norm_num [performance_profile, truncQ, min_def])
      (by norm_num [performance_profile]) (by norm_num) (by norm_num) (by norm_num) (by norm_num)

/-- C8 (witness): min_pwm 77, idle 35°C, balanced policy: the synthesized curve
satisfies the full Curve invariant. -/
theorem c8_curve_invariant_witness :
    (77 : ℤ) ≤ 230 ∧ (35 : ℚ) ≤ 80 ∧
    tempsMono (generate_curve ⟨77⟩ ⟨35⟩ "balanced") ∧
    pwmsMono (generate_curve ⟨77⟩ ⟨35⟩ "balanced") ∧
    pwmsInRange (generate_curve ⟨77⟩ ⟨35⟩ "balanced") := by
  have h := c8_curve_invariant 77 35 "balanced" (by norm_num) (by norm_num)
  exact ⟨by norm_num, by norm_num, h.1, h.2.1, h.2.2⟩

/-- C8 (counterexample): the silent policy applied to a calibration with
min_pwm = 255 and a profile with idle temperature 100°C synthesizes the curve
[(100,76),(95,71),(90,107),(85,142),(80,255)], whose temperatures are strictly
decreasing and whose duties decrease from point 1 to point 2 — violating the
Curve invariant the claim asserts for every input. -/
theorem c8_counterexample :
    generate_curve ⟨255⟩ ⟨100⟩ "silent" =
      [⟨1, 100, 76⟩, ⟨2, 95, 71⟩, ⟨3, 90, 107⟩, ⟨4, 85, 142⟩, ⟨5, 80, 255⟩] ∧
    ¬ tempsMono (generate_curve ⟨255⟩ ⟨100⟩ "silent") ∧
    ¬ pwmsMono (generate_curve ⟨255⟩ ⟨100⟩ "silent") := by
  have he : generate_curve ⟨255⟩ ⟨100⟩ "silent" =
      [⟨1, 100, 76⟩, ⟨2, 95, 71⟩, ⟨3, 90, 107⟩, ⟨4, 85, 142⟩, ⟨5, 80, 255⟩] := by
    norm_num [generate_curve, profileLookup_silent, silent_profile, round1, rhe, truncQ,
      min_def, max_def]
  refine ⟨he, ?_, ?_⟩
  · rw [he]
    norm_num [tempsMono, List.chain'_cons]
  · rw [he]
    norm_num [pwmsMono, List.chain'_cons]

/-- C10: for every profile name other than "silent", "balanced" and "performance",
`generate_curve` produces exactly the curve it produces for "balanced" on the same
calibration record and temperature profile (the `profiles.get` fallback). -/
theorem c10_unknown_profile_is_balanced (fan_data : FanCalData) (temp_data : TempData)
    (profile : String) (h1 : profile ≠ "silent") (h2 : profile ≠ "balanced")
    (h3 : profile ≠ "performance") :
    generate_curve fan_data temp_data profile = generate_curve fan_data temp_data "balanced" := by
  have hl : profileLookup profile = balanced_profile := by
    rw [profileLookup, if_neg h1, if_neg h2, if_neg h3]
  simp only [generate_curve, hl, profileLookup_balanced]

/-- C10 (witness): the unknown profile name "turbo" yields the balanced curve. -/
theorem c10_unknown_profile_is_balanced_witness :
    ("turbo" : String) ≠ "silent" ∧ ("turbo" : String) ≠ "balanced" ∧
    ("turbo" : String) ≠ "performance" ∧
    generate_curve ⟨77⟩ ⟨35⟩ "turbo" = generate_curve ⟨77⟩ ⟨35⟩ "balanced" :=
  ⟨by decide, by decide, by decide,
    c10_unknown_profile_is_balanced ⟨77⟩ ⟨35⟩ "turbo" (by decide) (by decide) (by decide)⟩

/-! ### Claim theorems: the calibration sweep and run (C9, C6) -/

theorem calibrate_sweep_complete (r : ℤ → Option ℤ) (fan : ℤ) : ∀ (ps : List ℤ) (i : ℕ)
    (res : CalResult) (ui : TunerUI) (k : ℕ),
    (calibrate_sweep (fun _ => true) r fan ps i res ui k).1 =
      Except.ok (ps.foldl (fun acc pwm => sweepRecord acc pwm (r pwm)) res)
  | [], _, _, _, _ => rfl
  | pwm :: rest, i, res, ui, k => by
      rw [calibrate_sweep]
      simp only [if_pos]
      rw [List.foldl_cons]
      exact calibrate_sweep_complete r fan rest (i + 1) _ _ (k + 1)

theorem sweep_foldl_fan_id (r : ℤ → Option ℤ) : ∀ (ps : List ℤ) (res : CalResult),
    (ps.foldl (fun acc pwm => sweepRecord acc pwm (r pwm)) res).fan_id = res.fan_id
  | [], _ => rfl
  | p :: rest, res => by
      rw [List.foldl_cons, sweep_foldl_fan_id r rest]
      cases r p <;> rfl

theorem sweep_foldl_min_of_ne (r : ℤ → Option ℤ) : ∀ (ps : List ℤ) (res : CalResult),
    res.min_pwm ≠ 0 →
    (ps.foldl (fun acc pwm => sweepRecord acc pwm (r pwm)) res).min_pwm = res.min_pwm
  | [], _, _ => rfl
  | p :: rest, res, h => by
      rw [List.foldl_cons]
      have hstep : (sweepRecord res p (r p)).min_pwm = res.min_pwm := by
        cases hr : r p with
        | none => rfl
        | some v =>
            simp only [sweepRecord]
            exact if_neg fun hc => h hc.2
      rw [sweep_foldl_min_of_ne r rest _ (by rw [hstep]; exact h), hstep]

theorem sweep_foldl_min_of_zero (r : ℤ → Option ℤ) : ∀ (ps : List ℤ),
    (∀ p ∈ ps, p ≠ 0) → ∀ (res : CalResult), res.min_pwm = 0 →
    (ps.foldl (fun acc pwm => sweepRecord acc pwm (r pwm)) res).min_pwm =
      ((ps.find? fun p => obsPos r p).getD 0)
  | [], _, _, h0 => by simp [h0]
  | p :: rest, hps, res, h0 => by
      rw [List.foldl_cons]
      cases hr : r p with
      | none =>
          rw [List.find?_cons_of_neg _ (by simp [obsPos, hr])]
          exact sweep_foldl_min_of_zero r rest (fun q hq => hps q (by simp [hq])) res h0
      | some v =>
          by_cases hv : 0 < v
          · rw [List.find?_cons_of_pos _ (by simp [obsPos, hr, hv])]
            have hstep : (sweepRecord res p (some v)).min_pwm = p := by
              simp only [sweepRecord]
              exact if_pos ⟨hv, h0⟩
            rw [sweep_foldl_min_of_ne r rest _ (by rw [hstep]; exact hps p (by simp)), hstep]
            rfl
          · rw [List.find?_cons_of_neg _ (by simp [obsPos, hr, hv])]
            have hstep : (sweepRecord res p (some v)).min_pwm = 0 := by
              simp only [sweepRecord]
              rw [if_neg fun hc => hv hc.1]
              exact h0
            exact sweep_foldl_min_of_zero r rest (fun q hq => hps q (by simp [hq])) _ hstep

theorem sweep_foldl_max (r : ℤ → Option ℤ) : ∀ (ps : List ℤ) (res : CalResult),
    (ps.foldl (fun acc pwm => sweepRecord acc pwm (r pwm)) res).max_rpm =
      (ps.filterMap r).foldl max res.max_rpm
  | [], _ => rfl
  | p :: rest, res => by
      rw [List.foldl_cons]
      cases hr : r p with
      | none =>
          rw [sweep_foldl_max r rest]
          simp [List.filterMap_cons, hr, sweepRecord]
      | some v =>
          rw [sweep_foldl_max r rest]
          simp only [List.filterMap_cons, hr, List.foldl_cons, sweepRecord]
          congr 1
          rcases lt_or_ge res.max_rpm v with h | h
          · rw [if_pos h, max_eq_right (le_of_lt h)]
          · rw [if_neg (not_lt.2 h), max_eq_left h]

theorem sweep_foldl_map (r : ℤ → Option ℤ) : ∀ (ps : List ℤ) (res : CalResult),
    (ps.foldl (fun acc pwm => sweepRecord acc pwm (r pwm)) res).pwm_rpm_map =
      res.pwm_rpm_map ++ ps.filterMap (fun p => (r p).map fun v => (p, v))
  | [], _ => by simp
  | p :: rest, res => by
      rw [List.foldl_cons, sweep_foldl_map r rest]
      cases hr : r p with
      | none => simp [sweepRecord, List.filterMap_cons, hr]
      | some v => simp [sweepRecord, List.filterMap_cons, hr]

theorem calRes_eq {c : CalResult} {a b : ℤ} {mp : List (ℤ × ℤ)} {mx : ℤ}
    (h1 : c.fan_id = a) (h2 : c.min_pwm = b) (h3 : c.pwm_rpm_map = mp) (h4 : c.max_rpm = mx) :
    c = ⟨a, b, mp, mx⟩ := by
  cases c
  simp_all

/-- C9 (amended): a calibration sweep that runs to completion records, for every
observation oracle: min_pwm = the lowest positive tested duty level whose observed
RPM is positive (0 when there is none — a positive RPM observed at duty 0 never
registers, since min_pwm = 0 also encodes "not yet set"); max_rpm = the maximum of
0 and all observed RPMs; and the duty-to-RPM map = exactly the successful reads in
sweep order. E.g. RPM 0 at duties 0 and 50 and RPM 400 at duty 77 gives start
threshold 77. -/
theorem c9_sweep_records (r : ℤ → Option ℤ) (fan : ℤ) (ui : TunerUI) (k : ℕ) :
    (calibrate_fan (fun _ => true) r true fan ui k).1 =
      Except.ok ⟨fan, startThreshold r, observedPairs r, maxObservedRpm r⟩ := by
  rw [calibrate_fan, if_pos rfl, calibrate_sweep_complete]
  congr 1
  have htl : ∀ p ∈ ([50, 77, 102, 128, 153, 179, 204, 230, 255] : List ℤ), p ≠ 0 := by decide
  refine calRes_eq (sweep_foldl_fan_id r test_pwms _) ?_ ?_ ?_
  · rw [test_pwms, List.foldl_cons]
    have h0 : (sweepRecord ⟨fan, 0, [], 0⟩ 0 (r 0)).min_pwm = 0 := by
      cases hr : r 0 with
      | none => rfl
      | some v =>
          simp only [sweepRecord]
          split_ifs <;> rfl
    rw [sweep_foldl_min_of_zero r _ htl _ h0]
    have hfl : test_pwms.filter (fun p => decide (0 < p)) =
        ([50, 77, 102, 128, 153, 179, 204, 230, 255] : List ℤ) := by decide
    rw [startThreshold, hfl]
  · rw [sweep_foldl_map]
    rfl
  · rw [sweep_foldl_max]
    rfl

/-- C9 (counterexample): a fan observed spinning already at duty 0 (RPM 400, then
RPM 500 at duty 50, 0 afterwards) gets start threshold 50 recorded, although the
lowest tested duty level at which the observed RPM is greater than 0 is 0 — the
claim's description of min_pwm fails on such a sweep. -/
theorem c9_counterexample :
    (calibrate_fan (fun _ => true) rpm_spin_at_zero true 1 ⟨0, ""⟩ 0).1 =
      Except.ok ⟨1, 50, [(0, 400), (50, 500), (77, 0), (102, 0), (128, 0), (153, 0), (179, 0),
        (204, 0), (230, 0), (255, 0)], 500⟩ ∧
    (test_pwms.find? fun p => obsPos rpm_spin_at_zero p) = some 0 ∧
    (50 : ℤ) ≠ 0 := by
  refine ⟨?_, by decide, by decide⟩
  have h := c9_sweep_records rpm_spin_at_zero 1 ⟨0, ""⟩ 0
  rw [h]
  congr 1

/-- C6 (code bug): the running flag is cleared during the duty sweep of the last
(here: only) requested channel — profiling's 30 flag checks (0..29) and the
phase-2 loop check (30) pass, and the first sweep check (31) sees the cleared
flag. `calibrate_fan` returns the error "Calibration cancelled", but
`run_auto_tune` treats it like a per-fan calibration failure and continues; the
loop is exhausted, so the session records NO error, progress 100 and
"Auto-tune complete!" — the run is marked complete instead of cancelled. -/
theorem c6_cancel_last_sweep_marked_complete :
    run_auto_tune (fun k => decide (k < 31)) (fun _ => some 40) (fun _ _ => some 0)
        (fun _ => true) [1] "balanced" ⟨0, ""⟩ =
      (⟨some ⟨40, 40, 40, 40⟩, [], [], "balanced", none⟩, ⟨100, "Auto-tune complete!"⟩) := by
  norm_num [run_auto_tune, profile_temperature, collect_temps, tune_loop, calibrate_fan,
    calibrate_sweep, test_pwms]
